import Mathlib

/-!
Shallow embedding of `src/vpin_ffi_wrapper/src/lib.rs` (ASAPCabinetFE's
Rust FFI wrapper around the external `vpin` decode library).

Modelling conventions:
* A caller-supplied C string pointer is `Option (List Nat)`: `none` is the
  null pointer, `some bytes` the byte sequence up to (excluding) the NUL
  terminator, each byte `< 256`.
* `CStr::to_str`'s UTF-8 check is `validUtf8`, a direct transcription of
  the UTF-8 well-formedness rules `str::from_utf8` enforces.
* The external `vpin` decoder (out of scope per the crate: `vpin::vpx::open`,
  `read_tableinfo`, `read_gamedata`) is a black box.  Its behaviour for the
  one path a call uses is a `DecoderEnv`: each operation either panics,
  returns an error, or returns a decoded record (`Outcome`).
* `catch_unwind` is modelled by the closure bodies returning `Outcome`:
  `Outcome.panics` is a panic unwinding out of the closure, which the
  boundary match turns into the null return.
* `serde_json::Value` is modelled only at the shapes this program builds:
  a top-level object whose values are `JVal.null`, `JVal.str` or the one
  nested `JVal.obj` of string-valued properties.  `serde_json::Map::insert`
  is `mapInsert` (overwrite on duplicate key).  Key iteration order of the
  real `BTreeMap` is not modelled; no claim depends on order.
* `serde_json::to_string` escaping is transcribed in `escapeChar`
  (short escapes for `\"`, `\\`, BS, TAB, LF, FF, CR; `\u00xy` with
  lowercase hex for the other control characters; all else verbatim).
* `CString::new` is `cstringNew`: it fails exactly when the text contains
  an embedded NUL; on success the transferred buffer is the text itself.
  (A Rust string's UTF-8 bytes contain a zero byte iff the string contains
  the character U+0000, so the byte-level check is stated on characters.)
* `CString::into_raw` / `from_raw` ownership is modelled by a heap of
  outstanding buffers for `free_rust_string`.
-/

/-- A byte of the caller's path string. -/
abbrev Byte := Nat

/-- Continuation byte test, `0x80 ≤ b ≤ 0xBF`. -/
def isCont (b : Byte) : Bool := 0x80 ≤ b && b ≤ 0xBF

/-- UTF-8 validity of a byte sequence, as enforced by Rust's
`str::from_utf8` (hence by `CStr::to_str`). -/
def validUtf8 : List Byte → Bool
  | [] => true
  | b :: rest =>
    if b < 0x80 then validUtf8 rest
    else if b < 0xC2 then false
    else if b < 0xE0 then
      match rest with
      | c1 :: rest2 => isCont c1 && validUtf8 rest2
      | [] => false
    else if b < 0xF0 then
      match rest with
      | c1 :: c2 :: rest2 =>
        (if b = 0xE0 then 0xA0 ≤ c1 && c1 ≤ 0xBF
         else if b = 0xED then 0x80 ≤ c1 && c1 ≤ 0x9F
         else isCont c1) && isCont c2 && validUtf8 rest2
      | _ => false
    else if b < 0xF5 then
      match rest with
      | c1 :: c2 :: c3 :: rest2 =>
        (if b = 0xF0 then 0x90 ≤ c1 && c1 ≤ 0xBF
         else if b = 0xF4 then 0x80 ≤ c1 && c1 ≤ 0x8F
         else isCont c1) && isCont c2 && isCont c3 && validUtf8 rest2
      | _ => false
    else false

/-- Left brace character (written by code point to keep it out of literals). -/
def lbrace : Char := Char.ofNat 123

/-- Right brace character. -/
def rbrace : Char := Char.ofNat 125

/-- Double-quote character. -/
def dquote : Char := Char.ofNat 34

/-- Backslash character. -/
def bslash : Char := Char.ofNat 92

/-- Lowercase hex digit, as `serde_json` uses in `\u00xy` escapes. -/
def hexDigit (n : Nat) : Char :=
  if n < 10 then Char.ofNat (48 + n) else Char.ofNat (87 + n)

/-- `serde_json`'s per-character escaping when writing a JSON string. -/
def escapeChar (c : Char) : List Char :=
  if c = dquote then [bslash, dquote]
  else if c = bslash then [bslash, bslash]
  else if c.toNat = 8 then [bslash, 'b']
  else if c.toNat = 9 then [bslash, 't']
  else if c.toNat = 10 then [bslash, 'n']
  else if c.toNat = 12 then [bslash, 'f']
  else if c.toNat = 13 then [bslash, 'r']
  else if c.toNat < 32 then
    [bslash, 'u', '0', '0', hexDigit (c.toNat / 16), hexDigit (c.toNat % 16)]
  else [c]

/-- Escape every character of a string body. -/
def escapeString (s : String) : List Char := (s.data.map escapeChar).flatten

/-- A serialized JSON string: quote, escaped body, quote. -/
def serializeString (s : String) : List Char :=
  dquote :: (escapeString s ++ [dquote])

/-- `serde_json::Value`, restricted to the shapes this program constructs:
null, a string, or the nested properties object of string values. -/
inductive JVal where
  | null
  | str (s : String)
  | obj (fields : List (String × String))
  deriving DecidableEq, Repr

/-- Association-list lookup (first match), the reading side of the maps. -/
def assocLookup {α : Type} (k : String) : List (String × α) → Option α
  | [] => none
  | (k0, v) :: rest => if k0 = k then some v else assocLookup k rest

/-- `serde_json::Map::insert`: replace the value in place when the key is
already present, otherwise append the new entry. -/
def mapInsert {α : Type} : List (String × α) → String → α → List (String × α)
  | [], k, v => [(k, v)]
  | (k0, v0) :: rest, k, v =>
    if k0 = k then (k, v) :: rest else (k0, v0) :: mapInsert rest k v

/-- Fold a pair sequence into a map by repeated `mapInsert` (the
`for (key, value) in table_info.properties { properties_obj.insert(..) }`
loop). -/
def insertAll {α : Type} (m : List (String × α)) (l : List (String × α)) :
    List (String × α) :=
  l.foldl (fun acc kv => mapInsert acc kv.1 kv.2) m

/-- Comma-join serialized members. -/
def joinComma : List (List Char) → List Char
  | [] => []
  | l :: rest =>
    match rest with
    | [] => l
    | _ :: _ => l ++ ',' :: joinComma rest

/-- Serialize one restricted `serde_json::Value`. -/
def serializeVal : JVal → List Char
  | JVal.null => ['n', 'u', 'l', 'l']
  | JVal.str s => serializeString s
  | JVal.obj fields =>
    lbrace :: (joinComma (fields.map
      (fun kv => serializeString kv.1 ++ ':' :: serializeString kv.2)) ++ [rbrace])

/-- Serialize the top-level JSON object (`serde_json::to_string` on the
document the program builds). -/
def serializeDoc (doc : List (String × JVal)) : List Char :=
  lbrace :: (joinComma (doc.map
    (fun kv => serializeString kv.1 ++ ':' :: serializeVal kv.2)) ++ [rbrace])

/-- The `vpin` decoder's table-info record (fields as the wrapper consumes
them; `properties` is the key/value sequence its iteration yields). -/
structure TableInfo where
  table_name : Option String
  author_name : Option String
  table_blurb : Option String
  table_rules : Option String
  author_email : Option String
  release_date : Option String
  table_save_rev : Option String
  table_version : Option String
  author_website : Option String
  table_save_date : Option String
  table_description : Option String
  properties : List (String × String)
  deriving DecidableEq, Repr

/-- The `vpin` decoder's encoded-string wrapper (`gamedata.code.string`). -/
structure StringWithEncoding where
  string : String
  deriving DecidableEq, Repr

/-- The `vpin` decoder's game-data record (only the field the wrapper uses). -/
structure GameData where
  code : StringWithEncoding
  deriving DecidableEq, Repr

/-- JSON value of an optional text field, as `serde_json::json!` encodes
`Option<String>`. -/
def optJson : Option String → JVal
  | none => JVal.null
  | some s => JVal.str s

/-- The `json!` object literal of lines 36-48: eleven metadata fields. -/
def baseDoc (info : TableInfo) : List (String × JVal) :=
  [("table_name", optJson info.table_name),
   ("author_name", optJson info.author_name),
   ("table_blurb", optJson info.table_blurb),
   ("table_rules", optJson info.table_rules),
   ("author_email", optJson info.author_email),
   ("release_date", optJson info.release_date),
   ("table_save_rev", optJson info.table_save_rev),
   ("table_version", optJson info.table_version),
   ("author_website", optJson info.author_website),
   ("table_save_date", optJson info.table_save_date),
   ("table_description", optJson info.table_description)]

/-- The properties object built by the insertion loop of lines 51-55. -/
def buildProps (props : List (String × String)) : List (String × String) :=
  insertAll [] props

/-- The complete document: `json_object["properties"] = Value::Object(..)`
(index assignment on an object inserts the key). -/
def buildTableInfoDoc (info : TableInfo) : List (String × JVal) :=
  mapInsert (baseDoc info) "properties" (JVal.obj (buildProps info.properties))

/-- `serde_json::to_string`, which cannot fail on a `Value` built of string
keys and the shapes above; the `Result` the source matches on is modelled
as an `Option` that is always `some`. -/
def serde_to_string (doc : List (String × JVal)) : Option String :=
  some (String.mk (serializeDoc doc))

/-- The serialized table-info JSON text. -/
def tableInfoJsonString (info : TableInfo) : String :=
  String.mk (serializeDoc (buildTableInfoDoc info))

/-- Whether the text contains an embedded NUL character (equivalently, a
zero byte in its UTF-8 encoding). -/
def containsNul (s : String) : Bool := s.data.any (fun c => c.toNat == 0)

/-- `CString::new`: fails exactly on an embedded NUL; on success the
caller-owned buffer holds exactly this text (plus the terminator). -/
def cstringNew (s : String) : Option String :=
  if containsNul s then none else some s

/-- The shared marshaling match of lines 68-77 / 135-144:
`match CString::new(text) { Ok(c) => Some(c.into_raw()), Err(_) => None }`. -/
def marshalStage (s : String) : Option String :=
  match cstringNew s with
  | some buf => some buf
  | none => none

/-- Outcome of one call into the external decoder: an unwinding panic, a
reported error (`Err`), or a decoded value. -/
inductive Outcome (α : Type) where
  | panics
  | fails
  | ok (v : α)
  deriving DecidableEq

/-- The external decoder's behaviour for the path of the current call:
what `vpin::vpx::open`, `read_tableinfo` and `read_gamedata` each do. -/
structure DecoderEnv where
  openOutcome : Outcome Unit
  tableInfoOutcome : Outcome TableInfo
  gameDataOutcome : Outcome GameData

/-- Result of `std::panic::catch_unwind`: the closure's value (`Ok`), or a
caught panic (`Err`). -/
inductive Caught (α : Type) where
  | ok (v : α)
  | panicked
  deriving DecidableEq

/-- Body of the `catch_unwind` closure of `get_vpx_table_info_as_json`
(lines 28-90), together with the catching boundary: a decoder panic
becomes `Caught.panicked` instead of unwinding further. -/
def tableInfoClosure (env : DecoderEnv) : Caught (Option String) :=
  match env.openOutcome with
  | Outcome.panics => Caught.panicked
  | Outcome.fails => Caught.ok none
  | Outcome.ok _ =>
    match env.tableInfoOutcome with
    | Outcome.panics => Caught.panicked
    | Outcome.fails => Caught.ok none
    | Outcome.ok info =>
      match serde_to_string (buildTableInfoDoc info) with
      | none => Caught.ok none
      | some json_string => Caught.ok (marshalStage json_string)

/-- Body of the `catch_unwind` closure of `get_vpx_gamedata_code`
(lines 127-163), with the catching boundary. -/
def gameDataClosure (env : DecoderEnv) : Caught (Option String) :=
  match env.openOutcome with
  | Outcome.panics => Caught.panicked
  | Outcome.fails => Caught.ok none
  | Outcome.ok _ =>
    match env.gameDataOutcome with
    | Outcome.panics => Caught.panicked
    | Outcome.fails => Caught.ok none
    | Outcome.ok gamedata => Caught.ok (marshalStage gamedata.code.string)

/-- `get_vpx_table_info_as_json` (lines 9-103): null check, UTF-8 check,
`catch_unwind` around the pipeline, and the final match sending
`Ok(Some(ptr))` to the buffer and both `Ok(None)` and `Err(_)` to null. -/
def get_vpx_table_info_as_json (vpx_file_path : Option (List Byte))
    (env : DecoderEnv) : Option String :=
  match vpx_file_path with
  | none => none
  | some bytes =>
    if validUtf8 bytes then
      match tableInfoClosure env with
      | Caught.ok (some buf) => some buf
      | Caught.ok none => none
      | Caught.panicked => none
    else none

/-- `get_vpx_gamedata_code` (lines 106-177). -/
def get_vpx_gamedata_code (vpx_file_path : Option (List Byte))
    (env : DecoderEnv) : Option String :=
  match vpx_file_path with
  | none => none
  | some bytes =>
    if validUtf8 bytes then
      match gameDataClosure env with
      | Caught.ok (some buf) => some buf
      | Caught.ok none => none
      | Caught.panicked => none
    else none

/-- A heap of outstanding transferred buffers, keyed by handle (pointer). -/
abbrev BufferHeap := List (Nat × String)

/-- `free_rust_string` (lines 179-187): null is returned on immediately;
a non-null handle is reclaimed (`CString::from_raw` and drop). -/
def free_rust_string (heap : BufferHeap) (s : Option Nat) : BufferHeap :=
  match s with
  | none => heap
  | some p => heap.filter (fun kv => kv.1 != p)

/-- Last-occurrence lookup in a raw pair sequence: the value of the last
pair carrying the key (what repeated insert-overwrite should realize). -/
def lastAssoc {α : Type} (k : String) : List (String × α) → Option α
  | [] => none
  | (k0, v0) :: rest =>
    match lastAssoc k rest with
    | some v => some v
    | none => if k0 = k then some v0 else none

/-- Exact condition under which `get_vpx_table_info_as_json` hands back a
buffer: non-null path, valid UTF-8, decoder opens and reads table info.
(The serialize and `CString` stages cannot fail on this path.) -/
def tableInfoSuccess (ptr : Option (List Byte)) (env : DecoderEnv) : Prop :=
  ∃ bytes, ptr = some bytes ∧ validUtf8 bytes = true ∧
    env.openOutcome = Outcome.ok () ∧
    ∃ info, env.tableInfoOutcome = Outcome.ok info

/-- Exact condition under which `get_vpx_gamedata_code` hands back a
buffer: non-null path, valid UTF-8, decoder opens and reads game data, and
the script text has no embedded NUL. -/
def gameDataSuccess (ptr : Option (List Byte)) (env : DecoderEnv) : Prop :=
  ∃ bytes, ptr = some bytes ∧ validUtf8 bytes = true ∧
    env.openOutcome = Outcome.ok () ∧
    ∃ gd, env.gameDataOutcome = Outcome.ok gd ∧
      containsNul gd.code.string = false

/-- A decoder environment whose every operation panics (a decoder abort on
a corrupted container). -/
def panicEnv : DecoderEnv :=
  ⟨Outcome.panics, Outcome.panics, Outcome.panics⟩

/-- A decoder environment whose open step reports an error. -/
def openFailEnv : DecoderEnv :=
  ⟨Outcome.fails, Outcome.fails, Outcome.fails⟩

/-- A decoder environment that decodes fixed records successfully. -/
def okEnv (info : TableInfo) (gd : GameData) : DecoderEnv :=
  ⟨Outcome.ok (), Outcome.ok info, Outcome.ok gd⟩

/-- A concrete table-info record used by witnesses. -/
def sampleInfo : TableInfo :=
  ⟨some "T", none, some "b", none, none, none, some "1", none, none, none,
   none, [("a", "1"), ("b", "2"), ("a", "3")]⟩

/-- A concrete table-info record with an empty properties sequence. -/
def emptyPropsInfo : TableInfo :=
  ⟨none, none, none, none, none, none, none, none, none, none, none, []⟩

/-- A concrete game-data record whose script has no embedded NUL. -/
def sampleGd : GameData := ⟨⟨"script"⟩⟩

/-- A concrete game-data record whose script has an embedded NUL. -/
def nulGd : GameData := ⟨⟨"scr\x00ipt"⟩⟩

section NulFreeLemmas

/-- Hex digits are never the NUL character. -/
theorem hexDigit_toNat_ne_zero (n : Nat) (h : n < 16) :
    (hexDigit n).toNat ≠ 0 := by
  interval_cases n <;> decide

/-- No character emitted by the escaper is NUL. -/
theorem escapeChar_ne_nul (c : Char) : ∀ x ∈ escapeChar c, x.toNat ≠ 0 := by
  intro x hx
  unfold escapeChar at hx
  split_ifs at hx with h1 h2 h3 h4 h5 h6 h7 h8
  · simp only [List.mem_cons, List.not_mem_nil, or_false] at hx
    rcases hx with rfl | rfl <;> decide
  · simp only [List.mem_cons, List.not_mem_nil, or_false] at hx
    rcases hx with rfl | rfl <;> decide
  · simp only [List.mem_cons, List.not_mem_nil, or_false] at hx
    rcases hx with rfl | rfl <;> decide
  · simp only [List.mem_cons, List.not_mem_nil, or_false] at hx
    rcases hx with rfl | rfl <;> decide
  · simp only [List.mem_cons, List.not_mem_nil, or_false] at hx
    rcases hx with rfl | rfl <;> decide
  · simp only [List.mem_cons, List.not_mem_nil, or_false] at hx
    rcases hx with rfl | rfl <;> decide
  · simp only [List.mem_cons, List.not_mem_nil, or_false] at hx
    rcases hx with rfl | rfl <;> decide
  · simp only [List.mem_cons, List.not_mem_nil, or_false] at hx
    rcases hx with rfl | rfl | rfl | rfl | rfl | rfl
    · decide
    · decide
    · decide
    · decide
    · exact hexDigit_toNat_ne_zero _ (by omega)
    · exact hexDigit_toNat_ne_zero _ (Nat.mod_lt _ (by omega))
  · simp only [List.mem_cons, List.not_mem_nil, or_false] at hx
    subst hx
    omega

/-- No character of an escaped string body is NUL. -/
theorem escapeString_ne_nul (s : String) : ∀ x ∈ escapeString s, x.toNat ≠ 0 := by
  intro x hx
  unfold escapeString at hx
  obtain ⟨l, hl, hxl⟩ := List.mem_flatten.mp hx
  obtain ⟨c, _, rfl⟩ := List.mem_map.mp hl
  exact escapeChar_ne_nul c x hxl

/-- No character of a serialized JSON string is NUL. -/
theorem serializeString_ne_nul (s : String) :
    ∀ x ∈ serializeString s, x.toNat ≠ 0 := by
  intro x hx
  unfold serializeString at hx
  rcases List.mem_cons.mp hx with h | h
  · subst h; decide
  rcases List.mem_append.mp h with h | h
  · exact escapeString_ne_nul s x h
  · simp at h; subst h; decide

/-- Membership in a comma-join comes from a member or is the comma. -/
theorem joinComma_mem (L : List (List Char)) (x : Char) (hx : x ∈ joinComma L) :
    x = ',' ∨ ∃ l ∈ L, x ∈ l := by
  induction L with
  | nil => simp [joinComma] at hx
  | cons l rest ih =>
    cases rest with
    | nil => exact Or.inr ⟨l, by simp, by simpa [joinComma] using hx⟩
    | cons l2 rest2 =>
      simp only [joinComma] at hx
      rcases List.mem_append.mp hx with h | h
      · exact Or.inr ⟨l, by simp, h⟩
      · rcases List.mem_cons.mp h with h | h
        · exact Or.inl h
        · rcases ih h with h2 | ⟨l3, hl3, hxl3⟩
          · exact Or.inl h2
          · exact Or.inr ⟨l3, by simp [hl3], hxl3⟩

/-- No character of a serialized restricted value is NUL. -/
theorem serializeVal_ne_nul (v : JVal) : ∀ x ∈ serializeVal v, x.toNat ≠ 0 := by
  intro x hx
  cases v with
  | null =>
    simp only [serializeVal, List.mem_cons, List.not_mem_nil, or_false] at hx
    rcases hx with rfl | rfl | rfl | rfl <;> decide
  | str s => exact serializeString_ne_nul s x hx
  | obj fields =>
    simp only [serializeVal] at hx
    rcases List.mem_cons.mp hx with h | h
    · subst h; decide
    rcases List.mem_append.mp h with h | h
    · rcases joinComma_mem _ _ h with h | ⟨l, hl, hxl⟩
      · subst h; decide
      · obtain ⟨kv, _, rfl⟩ := List.mem_map.mp hl
        rcases List.mem_append.mp hxl with h | h
        · exact serializeString_ne_nul kv.1 x h
        · rcases List.mem_cons.mp h with h | h
          · subst h; decide
          · exact serializeString_ne_nul kv.2 x h
    · simp at h; subst h; decide

/-- No character of the serialized top-level document is NUL. -/
theorem serializeDoc_ne_nul (doc : List (String × JVal)) :
    ∀ x ∈ serializeDoc doc, x.toNat ≠ 0 := by
  intro x hx
  simp only [serializeDoc] at hx
  rcases List.mem_cons.mp hx with h | h
  · subst h; decide
  rcases List.mem_append.mp h with h | h
  · rcases joinComma_mem _ _ h with h | ⟨l, hl, hxl⟩
    · subst h; decide
    · obtain ⟨kv, _, rfl⟩ := List.mem_map.mp hl
      rcases List.mem_append.mp hxl with h | h
      · exact serializeString_ne_nul kv.1 x h
      · rcases List.mem_cons.mp h with h | h
        · subst h; decide
        · exact serializeVal_ne_nul kv.2 x h
  · simp at h; subst h; decide

/-- The serialized document never contains an embedded NUL. -/
theorem containsNul_serializeDoc (doc : List (String × JVal)) :
    containsNul (String.mk (serializeDoc doc)) = false := by
  rw [containsNul]
  rw [Bool.eq_false_iff]
  intro hany
  obtain ⟨c, hc, hb⟩ := List.any_eq_true.mp hany
  exact serializeDoc_ne_nul doc c hc (by simpa using hb)

/-- Hence `CString::new` always succeeds on the serialized document. -/
theorem cstringNew_serializeDoc (doc : List (String × JVal)) :
    cstringNew (String.mk (serializeDoc doc)) = some (String.mk (serializeDoc doc)) := by
  rw [cstringNew, containsNul_serializeDoc]
  rfl

end NulFreeLemmas

section MapLemmas

/-- Lookup after one insert: the inserted key reads back the new value,
every other key is untouched. -/
theorem assocLookup_mapInsert {α : Type} (m : List (String × α)) (k k' : String)
    (v : α) :
    assocLookup k' (mapInsert m k v) =
      if k = k' then some v else assocLookup k' m := by
  induction m with
  | nil => simp [mapInsert, assocLookup]
  | cons kv rest ih =>
    obtain ⟨k0, v0⟩ := kv
    by_cases h0 : k0 = k
    · subst h0
      simp only [mapInsert, if_pos rfl]
      by_cases h1 : k0 = k'
      · subst h1; simp [assocLookup]
      · simp [assocLookup, h1]
    · simp only [mapInsert, if_neg h0]
      by_cases h1 : k0 = k'
      · subst h1
        have hkk : ¬ k = k0 := fun h => h0 h.symm
        simp [assocLookup, hkk]
      · simp [assocLookup, h1, ih]

/-- Lookup in the folded insert sequence: the last occurrence in the
sequence wins; keys not in the sequence fall through to the start map. -/
theorem assocLookup_insertAll {α : Type} (l : List (String × α))
    (m : List (String × α)) (k : String) :
    assocLookup k (insertAll m l) =
      match lastAssoc k l with
      | some v => some v
      | none => assocLookup k m := by
  induction l generalizing m with
  | nil => simp [insertAll, lastAssoc]
  | cons kv rest ih =>
    obtain ⟨k0, v0⟩ := kv
    have hstep : insertAll m ((k0, v0) :: rest) = insertAll (mapInsert m k0 v0) rest := by
      simp [insertAll]
    rw [hstep, ih]
    simp only [lastAssoc]
    cases hlast : lastAssoc k rest with
    | some v => rfl
    | none =>
      rw [assocLookup_mapInsert]
      by_cases h0 : k0 = k
      · subst h0; simp
      · have : ¬ k = k0 := fun h => h0 h.symm
        simp [h0, this]

/-- Keys after one insert: unchanged when the key was present, the key
appended otherwise. -/
theorem mapInsert_keys {α : Type} (m : List (String × α)) (k : String) (v : α) :
    (mapInsert m k v).map Prod.fst =
      if k ∈ m.map Prod.fst then m.map Prod.fst else m.map Prod.fst ++ [k] := by
  induction m with
  | nil => simp [mapInsert]
  | cons kv rest ih =>
    obtain ⟨k0, v0⟩ := kv
    by_cases h0 : k0 = k
    · subst h0; simp [mapInsert]
    · have : ¬ k = k0 := fun h => h0 h.symm
      simp only [mapInsert, if_neg h0, List.map_cons, ih]
      by_cases hmem : k ∈ rest.map Prod.fst
      · simp [hmem, this]
      · simp [hmem, this]

/-- One insert keeps the key list duplicate-free. -/
theorem mapInsert_keys_nodup {α : Type} (m : List (String × α)) (k : String)
    (v : α) (h : (m.map Prod.fst).Nodup) :
    ((mapInsert m k v).map Prod.fst).Nodup := by
  rw [mapInsert_keys]
  by_cases hmem : k ∈ m.map Prod.fst
  · simpa [hmem] using h
  · simp only [if_neg hmem]
    simpa [List.nodup_append, hmem] using h

/-- The folded insert sequence keeps the key list duplicate-free. -/
theorem insertAll_keys_nodup {α : Type} (l : List (String × α))
    (m : List (String × α)) (h : (m.map Prod.fst).Nodup) :
    ((insertAll m l).map Prod.fst).Nodup := by
  induction l generalizing m with
  | nil => simpa [insertAll] using h
  | cons kv rest ih =>
    have hstep : insertAll m (kv :: rest) = insertAll (mapInsert m kv.1 kv.2) rest := by
      simp [insertAll]
    rw [hstep]
    exact ih _ (mapInsert_keys_nodup m kv.1 kv.2 h)

/-- The properties object never holds two entries with the same key. -/
theorem buildProps_keys_nodup (props : List (String × String)) :
    ((buildProps props).map Prod.fst).Nodup :=
  insertAll_keys_nodup props [] (by simp)

/-- The properties object realizes exactly the decoder's sequence with
insert-overwrite semantics: lookup yields the last value the decoder
produced for the key, and nothing else. -/
theorem assocLookup_buildProps (props : List (String × String)) (k : String) :
    assocLookup k (buildProps props) = lastAssoc k props := by
  rw [buildProps, assocLookup_insertAll]
  cases lastAssoc k props <;> simp [assocLookup]

end MapLemmas

section PipelineLemmas

/-- The marshaling match is the `CString` construction itself. -/
theorem marshalStage_eq (s : String) : marshalStage s = cstringNew s := by
  rw [marshalStage]
  cases cstringNew s <;> rfl

/-- With open and read succeeding, the table-info closure hands the
serialized document to the marshaling stage. -/
theorem tableInfoClosure_eq_marshal (env : DecoderEnv) (info : TableInfo)
    (ho : env.openOutcome = Outcome.ok ())
    (ht : env.tableInfoOutcome = Outcome.ok info) :
    tableInfoClosure env = Caught.ok (marshalStage (tableInfoJsonString info)) := by
  rw [tableInfoClosure, ho, ht]
  rfl

/-- With open and read succeeding, the table-info closure succeeds with
the serialized document (the marshal stage cannot fail there). -/
theorem tableInfoClosure_ok (env : DecoderEnv) (info : TableInfo)
    (ho : env.openOutcome = Outcome.ok ())
    (ht : env.tableInfoOutcome = Outcome.ok info) :
    tableInfoClosure env = Caught.ok (some (tableInfoJsonString info)) := by
  rw [tableInfoClosure_eq_marshal env info ho ht, marshalStage_eq]
  rw [tableInfoJsonString, cstringNew_serializeDoc]

/-- With open and read succeeding, the game-data closure hands the raw
script text to the marshaling stage. -/
theorem gameDataClosure_eq_marshal (env : DecoderEnv) (gd : GameData)
    (ho : env.openOutcome = Outcome.ok ())
    (hg : env.gameDataOutcome = Outcome.ok gd) :
    gameDataClosure env = Caught.ok (marshalStage gd.code.string) := by
  rw [gameDataClosure, ho, hg]

end PipelineLemmas

/-- C1: when the decode path of either extraction call raises an abrupt
internal fault (a panic), the `catch_unwind` boundary catches it, the call
returns the null failure result (so no unwinding crosses into the foreign
caller and no partially built output buffer is transferred or kept). -/
theorem c1_panic_caught_at_boundary (ptr : Option (List Byte)) (env : DecoderEnv) :
    (tableInfoClosure env = Caught.panicked →
      get_vpx_table_info_as_json ptr env = none) ∧
    (gameDataClosure env = Caught.panicked →
      get_vpx_gamedata_code ptr env = none) := by
  constructor <;> intro h <;> cases ptr <;>
    simp [get_vpx_table_info_as_json, get_vpx_gamedata_code, h]

/-- Witness for C1: a decoder that panics on every operation. -/
theorem c1_panic_caught_at_boundary_witness :
    tableInfoClosure panicEnv = Caught.panicked ∧
    gameDataClosure panicEnv = Caught.panicked ∧
    get_vpx_table_info_as_json (some [0x61]) panicEnv = none ∧
    get_vpx_gamedata_code (some [0x61]) panicEnv = none :=
  ⟨rfl, rfl, (c1_panic_caught_at_boundary (some [0x61]) panicEnv).1 rfl,
   (c1_panic_caught_at_boundary (some [0x61]) panicEnv).2 rfl⟩

/-- C2: each call produces exactly one of the two outcomes — a buffer
exactly when the success condition of its pipeline holds, and the null
failure signal exactly otherwise; never both, never neither. -/
theorem c2_exactly_one_outcome (ptr : Option (List Byte)) (env : DecoderEnv) :
    ((∃ s, get_vpx_table_info_as_json ptr env = some s) ↔ tableInfoSuccess ptr env) ∧
    (get_vpx_table_info_as_json ptr env = none ↔ ¬ tableInfoSuccess ptr env) ∧
    ((∃ s, get_vpx_gamedata_code ptr env = some s) ↔ gameDataSuccess ptr env) ∧
    (get_vpx_gamedata_code ptr env = none ↔ ¬ gameDataSuccess ptr env) := by
  have hnone : ∀ (o : Option String), (o = none) ↔ ¬ ∃ s, o = some s := by
    intro o; cases o <;> simp
  have hti : (∃ s, get_vpx_table_info_as_json ptr env = some s) ↔ tableInfoSuccess ptr env := by
    constructor
    · rintro ⟨s, hs⟩
      cases ptr with
      | none => simp [get_vpx_table_info_as_json] at hs
      | some bytes =>
        cases hval : validUtf8 bytes with
        | false => simp [get_vpx_table_info_as_json, hval] at hs
        | true =>
          cases ho : env.openOutcome with
          | panics => simp [get_vpx_table_info_as_json, hval, tableInfoClosure, ho] at hs
          | fails => simp [get_vpx_table_info_as_json, hval, tableInfoClosure, ho] at hs
          | ok u =>
            cases u
            cases ht : env.tableInfoOutcome with
            | panics => simp [get_vpx_table_info_as_json, hval, tableInfoClosure, ho, ht] at hs
            | fails => simp [get_vpx_table_info_as_json, hval, tableInfoClosure, ho, ht] at hs
            | ok info => exact ⟨bytes, rfl, hval, ho, info, ht⟩
    · rintro ⟨bytes, rfl, hval, ho, info, ht⟩
      exact ⟨tableInfoJsonString info, by
        simp [get_vpx_table_info_as_json, hval, tableInfoClosure_ok env info ho ht]⟩
  have hgd : (∃ s, get_vpx_gamedata_code ptr env = some s) ↔ gameDataSuccess ptr env := by
    constructor
    · rintro ⟨s, hs⟩
      cases ptr with
      | none => simp [get_vpx_gamedata_code] at hs
      | some bytes =>
        cases hval : validUtf8 bytes with
        | false => simp [get_vpx_gamedata_code, hval] at hs
        | true =>
          cases ho : env.openOutcome with
          | panics => simp [get_vpx_gamedata_code, hval, gameDataClosure, ho] at hs
          | fails => simp [get_vpx_gamedata_code, hval, gameDataClosure, ho] at hs
          | ok u =>
            cases u
            cases hg : env.gameDataOutcome with
            | panics => simp [get_vpx_gamedata_code, hval, gameDataClosure, ho, hg] at hs
            | fails => simp [get_vpx_gamedata_code, hval, gameDataClosure, ho, hg] at hs
            | ok gd =>
              cases hnul : containsNul gd.code.string with
              | true =>
                simp [get_vpx_gamedata_code, hval,
                  gameDataClosure_eq_marshal env gd ho hg, marshalStage_eq,
                  cstringNew, hnul] at hs
              | false => exact ⟨bytes, rfl, hval, ho, gd, hg, hnul⟩
    · rintro ⟨bytes, rfl, hval, ho, gd, hg, hnul⟩
      exact ⟨gd.code.string, by
        simp [get_vpx_gamedata_code, hval, gameDataClosure_eq_marshal env gd ho hg,
          marshalStage_eq, cstringNew, hnul]⟩
  exact ⟨hti, by rw [hnone]; exact not_congr hti, hgd, by rw [hnone]; exact not_congr hgd⟩

/-- C3: the table-info document has one top-level key per metadata field
whose value is exactly the decoder's field, and a nested properties object
holding exactly the decoder's key/value pairs, duplicate-free, with the
later occurrence of a repeated key winning. -/
theorem c3_table_info_document (info : TableInfo) :
    assocLookup "table_name" (buildTableInfoDoc info) = some (optJson info.table_name) ∧
    assocLookup "author_name" (buildTableInfoDoc info) = some (optJson info.author_name) ∧
    assocLookup "table_blurb" (buildTableInfoDoc info) = some (optJson info.table_blurb) ∧
    assocLookup "table_rules" (buildTableInfoDoc info) = some (optJson info.table_rules) ∧
    assocLookup "author_email" (buildTableInfoDoc info) = some (optJson info.author_email) ∧
    assocLookup "release_date" (buildTableInfoDoc info) = some (optJson info.release_date) ∧
    assocLookup "table_save_rev" (buildTableInfoDoc info) = some (optJson info.table_save_rev) ∧
    assocLookup "table_version" (buildTableInfoDoc info) = some (optJson info.table_version) ∧
    assocLookup "author_website" (buildTableInfoDoc info) = some (optJson info.author_website) ∧
    assocLookup "table_save_date" (buildTableInfoDoc info) = some (optJson info.table_save_date) ∧
    assocLookup "table_description" (buildTableInfoDoc info) = some (optJson info.table_description) ∧
    assocLookup "properties" (buildTableInfoDoc info)
      = some (JVal.obj (buildProps info.properties)) ∧
    ((buildProps info.properties).map Prod.fst).Nodup ∧
    ∀ k, assocLookup k (buildProps info.properties) = lastAssoc k info.properties :=
  ⟨rfl, rfl, rfl, rfl, rfl, rfl, rfl, rfl, rfl, rfl, rfl, rfl,
   buildProps_keys_nodup info.properties,
   fun k => assocLookup_buildProps info.properties k⟩

/-- C4: when the decoder succeeds and the script has no embedded NUL,
`get_vpx_gamedata_code` returns a buffer byte-for-byte identical to the
decoded script source field, unmodified. -/
theorem c4_gamedata_byte_identical (bytes : List Byte) (env : DecoderEnv)
    (gd : GameData)
    (hval : validUtf8 bytes = true)
    (ho : env.openOutcome = Outcome.ok ())
    (hg : env.gameDataOutcome = Outcome.ok gd)
    (hnul : containsNul gd.code.string = false) :
    get_vpx_gamedata_code (some bytes) env = some gd.code.string := by
  simp [get_vpx_gamedata_code, hval, gameDataClosure_eq_marshal env gd ho hg,
    marshalStage_eq, cstringNew, hnul]

/-- Witness for C4: a decoded script `"script"` comes back verbatim. -/
theorem c4_gamedata_byte_identical_witness :
    validUtf8 [0x61] = true ∧
    (okEnv sampleInfo sampleGd).openOutcome = Outcome.ok () ∧
    (okEnv sampleInfo sampleGd).gameDataOutcome = Outcome.ok sampleGd ∧
    containsNul sampleGd.code.string = false ∧
    get_vpx_gamedata_code (some [0x61]) (okEnv sampleInfo sampleGd)
      = some "script" :=
  ⟨by decide, rfl, rfl, by decide,
   c4_gamedata_byte_identical [0x61] (okEnv sampleInfo sampleGd) sampleGd
     (by decide) rfl rfl (by decide)⟩

/-- C5: when the decoded script contains an embedded NUL byte, the call
returns the null failure result; it never returns a (truncated or escaped)
buffer. -/
theorem c5_embedded_nul_fails (bytes : List Byte) (env : DecoderEnv)
    (gd : GameData)
    (hval : validUtf8 bytes = true)
    (ho : env.openOutcome = Outcome.ok ())
    (hg : env.gameDataOutcome = Outcome.ok gd)
    (hnul : containsNul gd.code.string = true) :
    get_vpx_gamedata_code (some bytes) env = none ∧
    ∀ s, get_vpx_gamedata_code (some bytes) env ≠ some s := by
  have h : get_vpx_gamedata_code (some bytes) env = none := by
    simp [get_vpx_gamedata_code, hval, gameDataClosure_eq_marshal env gd ho hg,
      marshalStage_eq, cstringNew, hnul]
  exact ⟨h, fun s hs => by rw [h] at hs; cases hs⟩

/-- Witness for C5: a script with an interior NUL yields null, not a
truncated buffer. -/
theorem c5_embedded_nul_fails_witness :
    containsNul nulGd.code.string = true ∧
    get_vpx_gamedata_code (some [0x61]) (okEnv sampleInfo nulGd) = none :=
  ⟨by decide,
   (c5_embedded_nul_fails [0x61] (okEnv sampleInfo nulGd) nulGd
     (by decide) rfl rfl (by decide)).1⟩

/-- C6: a null path pointer, or path bytes that are not valid UTF-8, make
both calls return the null failure result for every possible decoder
behaviour — in particular the result is the same even for a decoder that
would panic or succeed, so the decoder (and the file) is never consulted. -/
theorem c6_invalid_path_rejected (ptr : Option (List Byte)) (env : DecoderEnv)
    (h : ptr = none ∨ ∃ bytes, ptr = some bytes ∧ validUtf8 bytes = false) :
    get_vpx_table_info_as_json ptr env = none ∧
    get_vpx_gamedata_code ptr env = none := by
  rcases h with rfl | ⟨bytes, rfl, hval⟩
  · exact ⟨rfl, rfl⟩
  · simp [get_vpx_table_info_as_json, get_vpx_gamedata_code, hval]

/-- Witness for C6: the null pointer and a non-UTF-8 path, against a
decoder that would panic if it were ever invoked. -/
theorem c6_invalid_path_rejected_witness :
    validUtf8 [0xFF] = false ∧
    get_vpx_table_info_as_json none panicEnv = none ∧
    get_vpx_gamedata_code none panicEnv = none ∧
    get_vpx_table_info_as_json (some [0xFF]) panicEnv = none ∧
    get_vpx_gamedata_code (some [0xFF]) panicEnv = none :=
  ⟨by decide,
   (c6_invalid_path_rejected none panicEnv (Or.inl rfl)).1,
   (c6_invalid_path_rejected none panicEnv (Or.inl rfl)).2,
   (c6_invalid_path_rejected (some [0xFF]) panicEnv
     (Or.inr ⟨[0xFF], rfl, by decide⟩)).1,
   (c6_invalid_path_rejected (some [0xFF]) panicEnv
     (Or.inr ⟨[0xFF], rfl, by decide⟩)).2⟩

/-- C7: releasing a null handle through `free_rust_string` is a safe
no-op: the set of outstanding buffers is completely unchanged. -/
theorem c7_free_null_is_noop (heap : BufferHeap) :
    free_rust_string heap none = heap := rfl

/-- C8: the fallible output-buffer construction (`CString::new`, the
allocation-and-copy step of the result marshaler) is checked in both
operations: its failure becomes `None` at the marshal stage, both
pipelines route their candidate text through that stage, and such a
failure makes the call return the null failure result. -/
theorem c8_buffer_construction_checked (s : String) (bytes : List Byte)
    (env : DecoderEnv) (gd : GameData)
    (hs : cstringNew s = none)
    (hval : validUtf8 bytes = true)
    (ho : env.openOutcome = Outcome.ok ())
    (hg : env.gameDataOutcome = Outcome.ok gd)
    (hgnul : cstringNew gd.code.string = none) :
    marshalStage s = none ∧
    (∀ info, env.tableInfoOutcome = Outcome.ok info →
      tableInfoClosure env = Caught.ok (marshalStage (tableInfoJsonString info))) ∧
    gameDataClosure env = Caught.ok (marshalStage gd.code.string) ∧
    get_vpx_gamedata_code (some bytes) env = none := by
  refine ⟨by rw [marshalStage_eq, hs], ?_, gameDataClosure_eq_marshal env gd ho hg, ?_⟩
  · intro info ht
    exact tableInfoClosure_eq_marshal env info ho ht
  · simp [get_vpx_gamedata_code, hval, gameDataClosure_eq_marshal env gd ho hg,
      marshalStage_eq, hgnul]

/-- Witness for C8: a NUL-carrying text fails construction and the call
collapses to null. -/
theorem c8_buffer_construction_checked_witness :
    cstringNew "\x00" = none ∧
    marshalStage "\x00" = none ∧
    tableInfoClosure (okEnv sampleInfo nulGd)
      = Caught.ok (marshalStage (tableInfoJsonString sampleInfo)) ∧
    gameDataClosure (okEnv sampleInfo nulGd)
      = Caught.ok (marshalStage nulGd.code.string) ∧
    get_vpx_gamedata_code (some [0x61]) (okEnv sampleInfo nulGd) = none := by
  have h := c8_buffer_construction_checked "\x00" [0x61] (okEnv sampleInfo nulGd)
    nulGd (by decide) (by decide) rfl rfl (by decide)
  exact ⟨by decide, h.1, h.2.1 sampleInfo rfl, h.2.2.1, h.2.2.2⟩

/-- C9: the serialized table-info JSON never contains an embedded NUL
character (the escaper replaces every control character), so whenever
serialization succeeds the subsequent `CString` conversion also succeeds
and its failure branch is unreachable on that path. -/
theorem c9_serialized_json_has_no_nul (info : TableInfo) :
    containsNul (tableInfoJsonString info) = false ∧
    serde_to_string (buildTableInfoDoc info) = some (tableInfoJsonString info) ∧
    cstringNew (tableInfoJsonString info) = some (tableInfoJsonString info) :=
  ⟨containsNul_serializeDoc (buildTableInfoDoc info), rfl,
   cstringNew_serializeDoc (buildTableInfoDoc info)⟩

/-- C10: every successful table-info document binds the top-level key
"properties" to a JSON object — for an empty decoder map it is the empty
object, not an absent key and not null. -/
theorem c10_properties_always_object (info : TableInfo) (bytes : List Byte)
    (env : DecoderEnv)
    (hval : validUtf8 bytes = true)
    (ho : env.openOutcome = Outcome.ok ())
    (ht : env.tableInfoOutcome = Outcome.ok info) :
    get_vpx_table_info_as_json (some bytes) env = some (tableInfoJsonString info) ∧
    assocLookup "properties" (buildTableInfoDoc info)
      = some (JVal.obj (buildProps info.properties)) ∧
    buildProps ([] : List (String × String)) = [] := by
  refine ⟨?_, rfl, rfl⟩
  simp [get_vpx_table_info_as_json, hval, tableInfoClosure_ok env info ho ht]

/-- Witness for C10: a record with an empty properties sequence still gets
`"properties": the empty object`. -/
theorem c10_properties_always_object_witness :
    get_vpx_table_info_as_json (some [0x61]) (okEnv emptyPropsInfo sampleGd)
      = some (tableInfoJsonString emptyPropsInfo) ∧
    assocLookup "properties" (buildTableInfoDoc emptyPropsInfo)
      = some (JVal.obj []) :=
  ⟨(c10_properties_always_object emptyPropsInfo [0x61] (okEnv emptyPropsInfo sampleGd)
      (by decide) rfl rfl).1,
   (c10_properties_always_object emptyPropsInfo [0x61] (okEnv emptyPropsInfo sampleGd)
      (by decide) rfl rfl).2.1⟩
